import Mathlib

/-!
Verification of the ASML command interpreter

A shallow embedding of the three source files of the repository
(`src/ci/interpreter.c`, `src/ci/parser.c`, `src/ci/label_map.c`) and
proofs about the embedded definitions.

Modelling conventions:
* C `int64_t` values are modelled as `Int`; where the C code reinterprets
  the bit pattern as `uint64_t` (or converts back) we apply the explicit
  conversions `toUnsigned` / `toSigned` (reduction modulo `2^64`).
* The C linked list of `Command` nodes is modelled as a `List Command`;
  a `Command *` pointer into the list is modelled as an index, and the
  `NULL` pointer as `none : Option Nat`.  `current->next` of the node at
  index `pc` is `some (pc+1)` when `pc+1` is still inside the list and
  `none` (the terminating `NULL` of the list) otherwise.
* The external memory store (`mem.h` / `mem.c` are not part of the three
  source files) is modelled from the spec: a fixed-capacity byte array
  with bounds-checked load/store.
* Each printed line (`printf(..."\n")`) is recorded, without the trailing
  newline, on an output trace carried in the interpreter state.
-/

namespace ASML

/-- Number of registers (`NUM_VARIABLES` in `interpreter.h`): the spec and
the code use a fixed file of 32 registers `x0`..`x31`. -/
def NUM_VARIABLES : Nat := 32

/-- Modelled from the spec: the external Memory Store has a fixed total
capacity (`MEM_CAPACITY` from `mem.h`, which is not among the source
files).  Its concrete value is irrelevant to every claim proved below. -/
def MEM_CAPACITY : Nat := 4096

/-- Reduce an integer to the unsigned 64-bit value with the same bit
pattern (C cast `(uint64_t)v` of an `int64_t`). -/
def toUnsigned (v : Int) : Int := v % (2 ^ 64)

/-- Reduce an integer to the signed 64-bit value with the same bit
pattern (C cast `(int64_t)v` of a `uint64_t`, two's complement). -/
def toSigned (v : Int) : Int :=
  let m := v % (2 ^ 64)
  if m < 2 ^ 63 then m else m - 2 ^ 64

/-- The operand union of `command_type.h`.  In C the fields
`num_val` / `str_val` / `base` overlap in a union and the active one is
chosen contextually by the owning command's flags; the model simply
carries all three fields. -/
structure Operand where
  num_val : Int := 0
  str_val : Option String := none
  base : Char := ' '
deriving Repr, DecidableEq

/-- The command kinds of `command_type.h` used by the parser and the
interpreter. -/
inductive CommandType where
  | CMD_MOV | CMD_ADD | CMD_SUB | CMD_CMP | CMD_CMP_U | CMD_PRINT
  | CMD_AND | CMD_EOR | CMD_ORR | CMD_LSL | CMD_LSR | CMD_ASR
  | CMD_LOAD | CMD_STORE | CMD_PUT | CMD_BRANCH | CMD_CALL | CMD_RET
deriving Repr, DecidableEq

/-- Branch conditions (`command_type.h`). -/
inductive BranchCondition where
  | BRANCH_NONE | BRANCH_ALWAYS | BRANCH_EQUAL | BRANCH_NOT_EQUAL
  | BRANCH_GREATER | BRANCH_LESS | BRANCH_GREATER_EQUAL | BRANCH_LESS_EQUAL
deriving Repr, DecidableEq

/-- A decoded instruction (`Command` in `command_type.h`), with the
defaults set by `create_command` in `parser.c`.  The `next` pointer of
the C struct is represented by the instruction's position in the program
list. -/
structure Command where
  type : CommandType
  destination : Operand := {}
  val_a : Operand := {}
  val_b : Operand := {}
  is_a_immediate : Bool := false
  is_a_string : Bool := false
  is_b_immediate : Bool := false
  is_b_string : Bool := false
  branch_condition : BranchCondition := .BRANCH_NONE
deriving Repr, DecidableEq

/-- A label-table entry (`Entry` in `label_map.h`): the label text and
the index (in the program list) of the command it points at. -/
structure Entry where
  id : String
  command : Nat
deriving Repr, DecidableEq

/-- The label hash table (`LabelMap`): `capacity` buckets, each bucket a
chain of entries, newest first. -/
structure LabelMap where
  capacity : Nat
  entries : List (List Entry)
deriving Repr, DecidableEq

/-- `label_map_init`: `capacity` empty buckets (allocation failure is not
modelled). -/
def label_map_init (capacity : Nat) : LabelMap :=
  { capacity := capacity, entries := List.replicate capacity [] }

/-- `hash_function` in `label_map.c`: sum of the byte values of the
string. -/
def hash_function (s : String) : Nat :=
  s.toList.foldl (fun a c => a + c.toNat) 0

/-- `put_label`: fails (returning `false` and the unchanged map) when the
id is already present in its bucket's chain; otherwise inserts a new
entry at the head of the chain. -/
def put_label (map : LabelMap) (id : String) (command : Nat) :
    Bool × LabelMap :=
  let hash := hash_function id % map.capacity
  let bucket := map.entries.getD hash []
  if bucket.any (fun e => e.id = id) then (false, map)
  else (true, { map with entries := map.entries.set hash (⟨id, command⟩ :: bucket) })

/-- `get_label`: walk the bucket chain and return the first entry whose
id matches. -/
def get_label (map : LabelMap) (id : String) : Option Entry :=
  (map.entries.getD (hash_function id % map.capacity) []).find?
    (fun e => e.id = id)

/-- A call-stack frame (`StackEntry` in `interpreter.h`): a snapshot of
all 32 registers plus the resume point (`current->next` at the CALL). -/
structure StackEntry where
  /-- the saved `variables` array (field name shortened: `variables` is a
  reserved command name in Lean) -/
  vars : Int → Int
  command : Option Nat

/-- The interpreter state (`Interpreter` in `interpreter.h`), extended
with the byte memory of the external store and the output trace of
`printf`.  Registers are a total function on `Int`; the C array has
exactly the cells `0..31` and every bounds-relevant access below guards
that range exactly as the C code does. -/
structure Interp where
  had_error : Bool
  is_greater : Bool
  is_equal : Bool
  is_less : Bool
  vars : Int → Int
  the_stack : List StackEntry
  mem : Nat → Nat
  output : List String

/-- `interpreter_init`: clear flags, registers and the stack. -/
def interpreter_init : Interp :=
  { had_error := false, is_greater := false, is_equal := false,
    is_less := false, vars := fun _ => 0, the_stack := [],
    mem := fun _ => 0, output := [] }

/-- Write register `i` (the C array store `intr->variables[i] = v`,
which the code performs only at indices the parser or an explicit check
has confined to `0..31`). -/
def setVar (f : Int → Int) (i : Int) (v : Int) : Int → Int :=
  fun j => if j = i then v else f j

/-- `fetch_number_value` in `interpreter.c`: an immediate operand is
returned directly; a register operand is bounds-checked against
`0..NUM_VARIABLES-1`, an out-of-range index sets the error flag and
yields 0. -/
def fetch_number_value (s : Interp) (op : Operand) (is_im : Bool) :
    Interp × Int :=
  if is_im then (s, op.num_val)
  else
    let var_num := op.num_val
    if var_num < 0 ∨ var_num ≥ (NUM_VARIABLES : Int) then
      ({ s with had_error := true }, 0)
    else (s, s.vars var_num)

/-- `cond_holds` in `interpreter.c`. -/
def cond_holds (s : Interp) (cond : BranchCondition) : Bool :=
  match cond with
  | .BRANCH_ALWAYS => true
  | .BRANCH_EQUAL => s.is_equal
  | .BRANCH_NOT_EQUAL => !s.is_equal
  | .BRANCH_GREATER => s.is_greater
  | .BRANCH_LESS => s.is_less
  | .BRANCH_GREATER_EQUAL => s.is_greater || s.is_equal
  | .BRANCH_LESS_EQUAL => s.is_less || s.is_equal
  | .BRANCH_NONE => false

/-- `strncmp(label, ".L", 2) == 0` from the BRANCH case: the label's
first two characters are `.` and `L`. -/
def isLocalLabel (label : String) : Bool :=
  match label.toList with
  | '.' :: 'L' :: _ => true
  | _ => false

/-- Append one printed line to the output trace. -/
def emitLine (s : Interp) (line : String) : Interp :=
  { s with output := s.output ++ [line] }

/-- The scan `while (highest_bit >= 0 && !(num & (1ULL << highest_bit)))`
of `to_binary_string`, started at the given index: the largest bit index
`≤ i` that is set in `num`, or `none` when no such bit exists. -/
def findHighest (num : Nat) : Nat → Option Nat
  | 0 => if Nat.testBit num 0 then some 0 else none
  | i + 1 => if Nat.testBit num (i + 1) then some (i + 1) else findHighest num i

/-- The emission loop `for (int i = highest_bit; i >= 0; i--)` of
`to_binary_string`: one character per bit from index `i` down to 0.
(The 67-byte buffer of the C code never truncates: the prefix, at most
64 bits and the terminator are exactly 67 bytes.) -/
def emitBits (num : Nat) : Nat → List Char
  | 0 => [if Nat.testBit num 0 then '1' else '0']
  | i + 1 => (if Nat.testBit num (i + 1) then '1' else '0') :: emitBits num i

/-- `to_binary_string` in `interpreter.c`: `"0b"` prefix, the single
digit `0` for zero, otherwise the bits of `num` from the highest set bit
(found by scanning down from bit 63) down to bit 0. -/
def to_binary_string (num : Nat) : String :=
  if num = 0 then "0b0"
  else
    match findHighest num 63 with
    | none => "0b"
    | some h => "0b" ++ String.mk (emitBits num h)

/-- Model of `printf("%" PRIx64, n)`: the minimal-width lowercase
hexadecimal digits of the unsigned 64-bit value. -/
def hexString (n : Nat) : String := String.mk (Nat.toDigits 16 n)

/-- Little-endian read of `count` bytes starting at `offset` (the copy
performed into the destination register by the external `mem_load`). -/
def memReadLE (m : Nat → Nat) : Nat → Nat → Nat
  | _, 0 => 0
  | offset, c + 1 => m offset + 256 * memReadLE m (offset + 1) c

/-- Little-endian write of the low `count` bytes of `v` starting at
`offset` (the external `mem_store` applied to the serialization buffer
built by `CMD_STORE`). -/
def memWriteLE (m : Nat → Nat) (offset count v : Nat) : Nat → Nat :=
  fun a => if offset ≤ a ∧ a < offset + count then v / 256 ^ (a - offset) % 256 else m a

/-- The byte-reading loop of the `'s'` case of `print_base`: reads one
byte at a time with `mem_load(..., offset + i, 1)` until a zero byte, a
load failure (`none`) or the buffer bound `MEM_CAPACITY - 1`; the fuel
argument counts the remaining loop iterations. -/
def readMemChars (m : Nat → Nat) (offset : Int) (i : Nat) :
    Nat → Option (List Char)
  | 0 => some []
  | fuel + 1 =>
    let addr := (toUnsigned (offset + i)).toNat
    if addr + 1 > MEM_CAPACITY then none
    else
      let b := m addr
      if b = 0 then some []
      else
        match readMemChars m offset (i + 1) fuel with
        | none => none
        | some rest => some (Char.ofNat b :: rest)

/-- `print_base` in `interpreter.c`: fetch the value, then print it per
the base character of `val_b` (`d` signed decimal, `b` via
`to_binary_string`, `x` lowercase unsigned hex, `s` a string read from
memory); any other base character sets the error flag and fails. -/
def print_base (s : Interp) (cmd : Command) : Bool × Interp :=
  let (s1, value) := fetch_number_value s cmd.val_a cmd.is_a_immediate
  if s1.had_error then (false, s1)
  else if cmd.val_b.base = 'd' then (true, emitLine s1 (toString value))
  else
    match cmd.val_b.base with
    | 'b' => (true, emitLine s1 (to_binary_string (toUnsigned value).toNat))
    | 'x' => (true, emitLine s1 ("0x" ++ hexString (toUnsigned value).toNat))
    | 's' =>
      -- the code re-fetches val_a, this time as the memory offset
      let (s2, offset) := fetch_number_value s1 cmd.val_a cmd.is_a_immediate
      if s2.had_error then (false, s2)
      else
        match readMemChars s2.mem offset 0 (MEM_CAPACITY - 1) with
        | none => (false, { s2 with had_error := true })
        | some cs => (true, emitLine s2 (String.mk cs))
    | _ => (false, { s1 with had_error := true })

/-- The byte-at-a-time store loop of `CMD_PUT`: each byte is written
with `mem_store(..., offset + i, 1)`; a failed write sets the error flag
and stops, leaving the bytes already written in place. -/
def putBytes (s : Interp) (offset : Int) (i : Nat) : List Nat → Interp
  | [] => s
  | b :: rest =>
    let addr := (toUnsigned (offset + i)).toNat
    if addr + 1 > MEM_CAPACITY then { s with had_error := true }
    else
      putBytes { s with mem := fun a => if a = addr then b else s.mem a }
        offset (i + 1) rest

/-- `current->next` of the node at index `pc`: the next index when one
exists, the list-terminating `NULL` otherwise. -/
def nextOf (prog : List Command) (pc : Nat) : Option Nat :=
  if pc + 1 < prog.length then some (pc + 1) else none

/-- One iteration of the `while` loop body of `interpret` in
`interpreter.c`, executing the command at index `pc`: returns the new
state and the new value of `current` (taking the bottom-of-loop
`if (!intr->had_error && !jumped) current = current->next;` into
account, so an iteration that sets the error flag leaves `current` at
`some pc`). -/
def step (prog : List Command) (map : LabelMap) (s : Interp) (pc : Nat)
    (cmd : Command) : Interp × Option Nat :=
  match cmd.type with
  | .CMD_MOV =>
    let (s1, value) := fetch_number_value s cmd.val_a cmd.is_a_immediate
    if s1.had_error then (s1, some pc)
    else
      ({ s1 with vars := setVar s1.vars cmd.destination.num_val value },
        nextOf prog pc)
  | .CMD_ADD | .CMD_SUB =>
    let (s1, a) := fetch_number_value s cmd.val_a false
    let (s2, b) := fetch_number_value s1 cmd.val_b cmd.is_b_immediate
    if s2.had_error then (s2, some pc)
    else
      let result :=
        if cmd.type = .CMD_ADD then toUnsigned (toUnsigned a + toUnsigned b)
        else toUnsigned (toUnsigned a - toUnsigned b)
      let dest_index := cmd.destination.num_val
      if dest_index < 0 ∨ dest_index ≥ (NUM_VARIABLES : Int) then
        ({ s2 with had_error := true }, some pc)
      else
        ({ s2 with vars := setVar s2.vars dest_index (toSigned result) },
          nextOf prog pc)
  | .CMD_CMP | .CMD_CMP_U =>
    let (s1, a) := fetch_number_value s cmd.val_a false
    let (s2, b) := fetch_number_value s1 cmd.val_b cmd.is_b_immediate
    if s2.had_error then (s2, some pc)
    else
      let g : Bool :=
        if cmd.type = .CMD_CMP then decide (a > b)
        else decide (toUnsigned a > toUnsigned b)
      let e : Bool := decide (a = b)
      ({ s2 with is_greater := g, is_equal := e, is_less := !(g || e) },
        nextOf prog pc)
  | .CMD_PRINT =>
    let (ok, s1) := print_base s cmd
    let s2 := if ok then s1 else { s1 with had_error := true }
    if s2.had_error then (s2, some pc) else (s2, nextOf prog pc)
  | .CMD_AND | .CMD_EOR | .CMD_ORR =>
    let (s1, a) := fetch_number_value s cmd.val_a false
    let (s2, b) := fetch_number_value s1 cmd.val_b false
    if s2.had_error then (s2, some pc)
    else
      let ua := (toUnsigned a).toNat
      let ub := (toUnsigned b).toNat
      let result : Nat :=
        if cmd.type = .CMD_AND then ua &&& ub
        else if cmd.type = .CMD_EOR then ua ^^^ ub
        else ua ||| ub
      ({ s2 with vars := setVar s2.vars cmd.destination.num_val (toSigned result) },
        nextOf prog pc)
  | .CMD_LSL | .CMD_LSR | .CMD_ASR =>
    let (s1, a) := fetch_number_value s cmd.val_a false
    let (s2, b) := fetch_number_value s1 cmd.val_b cmd.is_b_immediate
    if s2.had_error then (s2, some pc)
    else if b < 0 ∨ b > 63 then ({ s2 with had_error := true }, some pc)
    else
      let sh := b.toNat
      let result :=
        if cmd.type = .CMD_LSL then toSigned (toUnsigned a * 2 ^ sh)
        else if cmd.type = .CMD_LSR then toSigned (toUnsigned a / 2 ^ sh)
        else Int.fdiv a (2 ^ sh)
      ({ s2 with vars := setVar s2.vars cmd.destination.num_val result },
        nextOf prog pc)
  | .CMD_LOAD =>
    let (s1, offv) := fetch_number_value s cmd.val_b cmd.is_b_immediate
    let (s2, bytv) := fetch_number_value s1 cmd.val_a cmd.is_a_immediate
    let offset := (toUnsigned offv).toNat   -- the (size_t) casts
    let bytes := (toUnsigned bytv).toNat
    let s3 := { s2 with vars := setVar s2.vars cmd.destination.num_val 0 }
    if offset + bytes > MEM_CAPACITY then
      ({ s3 with had_error := true }, some pc)
    else
      -- a byte count > 8 would overflow the 8-byte register in C
      -- (undefined); the model keeps the low 64 bits
      let value := toSigned (memReadLE s3.mem offset bytes : Int)
      let s4 := { s3 with vars := setVar s3.vars cmd.destination.num_val value }
      if s4.had_error then (s4, some pc) else (s4, nextOf prog pc)
  | .CMD_STORE =>
    let src_index := cmd.destination.num_val
    let (s1, bytes) := fetch_number_value s cmd.val_a cmd.is_a_immediate
    let (s2, offset) := fetch_number_value s1 cmd.val_b cmd.is_b_immediate
    if bytes ≠ 1 ∧ bytes ≠ 2 ∧ bytes ≠ 4 ∧ bytes ≠ 8 then
      ({ s2 with had_error := true }, some pc)
    else if offset + bytes > (MEM_CAPACITY : Int) then
      ({ s2 with had_error := true }, some pc)
    else
      let value := s2.vars src_index
      let offN := (toUnsigned offset).toNat   -- the (size_t) casts
      let bytN := bytes.toNat
      if offN + bytN > MEM_CAPACITY then ({ s2 with had_error := true }, some pc)
      else
        let s3 := { s2 with mem := memWriteLE s2.mem offN bytN (toUnsigned value).toNat }
        if s3.had_error then (s3, some pc) else (s3, nextOf prog pc)
  | .CMD_PUT =>
    let (s1, offset) := fetch_number_value s cmd.val_b cmd.is_b_immediate
    match cmd.val_a.str_val with
    | some str =>
      if s1.had_error then (s1, some pc)
      else
        let s2 := putBytes s1 offset 0 (str.toList.map Char.toNat ++ [0])
        if s2.had_error then (s2, some pc) else (s2, nextOf prog pc)
    | none => ({ s1 with had_error := true }, some pc)
  | .CMD_BRANCH =>
    if cond_holds s cmd.branch_condition then
      let label := cmd.val_a.str_val.getD ""   -- the parser always sets it
      match get_label map label with
      | none =>
        if isLocalLabel label then (s, none)
        else
          let s1 := emitLine s ("Label not found: " ++ label)
          ({ s1 with had_error := true }, some pc)
      | some entry => (s, some entry.command)
    else (s, nextOf prog pc)
  | .CMD_CALL =>
    let label := cmd.val_a.str_val.getD ""
    match get_label map label with
    | none =>
      let s1 := emitLine s ("Label not found: " ++ label)
      ({ s1 with had_error := true }, some pc)
    | some target =>
      let frame : StackEntry := { vars := s.vars, command := nextOf prog pc }
      ({ s with the_stack := frame :: s.the_stack }, some target.command)
  | .CMD_RET =>
    match s.the_stack with
    | [] => (s, none)
    | frame :: rest =>
      ({ s with
            vars := fun i => if 1 ≤ i ∧ i ≤ (31 : Int) then frame.vars i else s.vars i,
            the_stack := rest },
        frame.command)

/-- The `while (current && !intr->had_error)` loop of `interpret`.  The
fuel argument is a model artifact: the C loop is unbounded (an
ill-formed program may loop forever), so theorems quantify over or fix
sufficient fuel.  Returns the final state and the final `current`. -/
def interpret_loop (prog : List Command) (map : LabelMap) :
    Nat → Interp → Option Nat → Interp × Option Nat
  | _, s, none => (s, none)
  | 0, s, cur => (s, cur)
  | fuel + 1, s, some pc =>
    if s.had_error then (s, some pc)
    else
      match prog.get? pc with
      | none => (s, some pc)   -- a dangling index; unreachable from parsed programs
      | some cmd =>
        let (s', cur') := step prog map s pc cmd
        interpret_loop prog map fuel s' cur'

/-- `interpret` in `interpreter.c`: run the loop from the head of the
program, then release every remaining call-stack frame.  A null command
list returns immediately. -/
def interpret (prog : List Command) (map : LabelMap) (fuel : Nat)
    (s : Interp) : Interp × Option Nat :=
  if prog.isEmpty then (s, none)
  else
    let (s', cur) := interpret_loop prog map fuel s (some 0)
    ({ s' with the_stack := [] }, cur)

/-! ## The parser (`parser.c`)

The external lexer is modelled as the list of tokens it produces; once
the list is exhausted it keeps returning the `TOK_EOF` sentinel, exactly
as the parser expects. -/

/-- The token kinds of `token_type.h` used by the parser. -/
inductive TokenType where
  | TOK_IDENT | TOK_NUM | TOK_STR | TOK_NL | TOK_EOF | TOK_COLON
  | TOK_MOV | TOK_ADD | TOK_SUB | TOK_CMP | TOK_CMP_U | TOK_PRINT
  | TOK_AND | TOK_EOR | TOK_ORR | TOK_LSL | TOK_LSR | TOK_ASR
  | TOK_LOAD | TOK_STORE | TOK_PUT
  | TOK_BRANCH | TOK_BRANCH_EQ | TOK_BRANCH_GE | TOK_BRANCH_GT
  | TOK_BRANCH_LE | TOK_BRANCH_LT | TOK_BRANCH_NEQ
  | TOK_CALL | TOK_RET
deriving Repr, DecidableEq

/-- A classified token: its kind and its text (the C struct carries a
borrowed `lexeme` pointer plus a `length`; the model stores the text
itself, so `length` is `lexeme.length`). -/
structure Token where
  type : TokenType
  lexeme : String := ""
deriving Repr, DecidableEq

/-- The `TOK_EOF` sentinel the lexer returns once the input is
exhausted. -/
def eofToken : Token := { type := .TOK_EOF }

/-- `lexer_next_token`: pop the next token, or the EOF sentinel. -/
def lexer_next : List Token → Token × List Token
  | [] => (eofToken, [])
  | t :: ts => (t, ts)

/-- Value of a character as a digit, as `strtol` classifies digits
(`0`-`9`, then letters from 10 up, either case); 99 for a non-digit, so
that the `< base` test fails for every base in use. -/
def digitVal (c : Char) : Nat :=
  if '0' ≤ c ∧ c ≤ '9' then c.toNat - '0'.toNat
  else if 'a' ≤ c ∧ c ≤ 'z' then c.toNat - 'a'.toNat + 10
  else if 'A' ≤ c ∧ c ≤ 'Z' then c.toNat - 'A'.toNat + 10
  else 99

/-- The digit-run of `strtol`/`strtoll`: value and length of the longest
prefix of digits valid in `base`. -/
def parseDigits (base : Nat) : List Char → Nat × Nat
  | [] => (0, 0)
  | c :: rest =>
    if digitVal c < base then
      let (v, n) := parseDigits base rest
      (digitVal c * base ^ n + v, n + 1)
    else (0, 0)

/-- `strtoll` clamps an overflowing value to the `int64_t` range. -/
def clampInt64 (v : Int) : Int :=
  if v > 2 ^ 63 - 1 then 2 ^ 63 - 1
  else if v < -(2 ^ 63) then -(2 ^ 63) else v

/-- Model of `strtoll(s, &endptr, base)` applied to a token's text
(token text never contains leading whitespace): an optional sign, an
optional `0x`/`0X` prefix when `base` is 16 and a hex digit follows,
then the longest run of digits valid in `base`.  Returns the value and
the number of characters consumed (`endptr - s`); when no digits are
found it returns `(0, 0)`, leaving `endptr` at the start. -/
def strtollModel (cs : List Char) (base : Nat) : Int × Nat :=
  let (sgn, body, signCount) :=
    match cs with
    | '-' :: r => ((-1 : Int), r, 1)
    | '+' :: r => ((1 : Int), r, 1)
    | _ => ((1 : Int), cs, 0)
  let (body2, preCount) :=
    match body with
    | '0' :: x :: c :: r =>
      if (x == 'x' || x == 'X') && base == 16 && digitVal c < 16 then
        (c :: r, 2)
      else (body, 0)
    | _ => (body, 0)
  let (mag, n) := parseDigits base body2
  if n = 0 then (0, 0)
  else (clampInt64 (sgn * (mag : Int)), signCount + preCount + n)

/-- `is_variable` in `parser.c`: at least two characters and the first
is `x`. -/
def is_variable (t : Token) : Bool :=
  t.lexeme.length ≥ 2 && t.lexeme.toList.headD ' ' == 'x'

/-- `is_base` in `parser.c`: a single character, one of `d x s b`. -/
def is_base (t : Token) : Bool :=
  t.lexeme.length == 1 &&
    (t.lexeme.toList.headD ' ' == 'd' || t.lexeme.toList.headD ' ' == 'x' ||
     t.lexeme.toList.headD ' ' == 's' || t.lexeme.toList.headD ' ' == 'b')

/-- `parse_variable` in `parser.c`: `strtol` on the text after the `x`,
requiring the whole suffix to be consumed and the value to lie in
`[0, 31]`. -/
def parse_variable (t : Token) : Option Int :=
  let suffix := t.lexeme.toList.drop 1
  let (v, n) := strtollModel suffix 10
  if n ≠ suffix.length ∨ v < 0 ∨ v > 31 then none else some v

/-- `parse_number` in `parser.c`: when the token has more than two
characters and starts with `0`, a second character `x`/`b` selects base
16/2 for the remaining text, otherwise the whole token is parsed in
base 10; the entire remaining token must be consumed by `strtoll`. -/
def parse_number (t : Token) : Option Int :=
  let cs := t.lexeme.toList
  let (ps, base) :=
    match cs with
    | '0' :: 'x' :: c :: rest => (c :: rest, 16)
    | '0' :: 'b' :: c :: rest => (c :: rest, 2)
    | _ => (cs, 10)
  let (v, n) := strtollModel ps base
  if n = ps.length then some v else none

/-- The parser state (`Parser` in `parser.h`): the two-token lookahead,
the rest of the token stream, the error flag and the label table. -/
structure Parser where
  toks : List Token
  current : Token
  next : Token
  had_error : Bool
  label_map : LabelMap
  /-- The index in the program list that the next parsed command will
  occupy.  The C code registers labels with `Command *` pointers; the
  list model uses the position the command receives in the parsed
  list. -/
  next_index : Nat

/-- `parser_init`: prime the two-token lookahead from the lexer. -/
def parser_init (toks : List Token) (map : LabelMap) : Parser :=
  let (c, ts1) := lexer_next toks
  let (n, ts2) := lexer_next ts1
  { toks := ts2, current := c, next := n, had_error := false,
    label_map := map, next_index := 0 }

/-- `is_at_end`: the current token is the EOF sentinel. -/
def is_at_end (p : Parser) : Bool := p.current.type == .TOK_EOF

/-- `advance`: return the current token; unless at EOF, shift the
lookahead and pull one more token from the lexer. -/
def advance (p : Parser) : Token × Parser :=
  if is_at_end p then (p.current, p)
  else
    let (n, ts) := lexer_next p.toks
    (p.current, { p with current := p.next, next := n, toks := ts })

/-- `consume`: advance past the current token iff it has the requested
type. -/
def consume (p : Parser) (type : TokenType) : Bool × Parser :=
  if p.current.type == type then (true, (advance p).2) else (false, p)

/-- The `while (consume(parser, TOK_NL));` loop of `skip_nls`, with fuel
(each successful `consume` either shortens the token list or moves the
EOF sentinel in within two steps). -/
def skip_nls_aux : Nat → Parser → Parser
  | 0, p => p
  | n + 1, p =>
    let (ok, p') := consume p .TOK_NL
    if ok then skip_nls_aux n p' else p'

/-- `skip_nls` in `parser.c`: skip every leading newline token. -/
def skip_nls (p : Parser) : Parser := skip_nls_aux (p.toks.length + 2) p

/-- `consume_newline` in `parser.c`: a newline or the EOF sentinel ends
a command. -/
def consume_newline (p : Parser) : Bool × Parser :=
  let (ok, p') := consume p .TOK_NL
  if ok then (true, p') else consume p' .TOK_EOF

/-- `parse_base` in `parser.c`: accept the current token when `is_base`
holds and record its single character. -/
def parse_base (p : Parser) : Option Char × Parser :=
  if is_base p.current then
    (some (p.current.lexeme.toList.headD ' '), (advance p).2)
  else (none, p)

/-- `parse_im` in `parser.c`: the current token parsed as a numeric
literal; does not advance the parser. -/
def parse_im (p : Parser) : Option Int :=
  if p.current.type = .TOK_NUM then parse_number p.current else none

/-- `parse_variable_operand` in `parser.c`: the current token as a
register (`TOK_IDENT`, `is_variable`, valid index); advances on
success. -/
def parse_variable_operand (p : Parser) : Option Int × Parser :=
  if p.current.type = .TOK_IDENT && is_variable p.current then
    match parse_variable p.current with
    | none => (none, p)
    | some v => (some v, (advance p).2)
  else (none, p)

/-- `parse_var_or_imm` in `parser.c`: try the register form first, then
the immediate form; the returned flag is the operand's
is-immediate flag. -/
def parse_var_or_imm (p : Parser) : Option (Int × Bool) × Parser :=
  if p.current.type = .TOK_IDENT && is_variable p.current then
    match parse_variable_operand p with
    | (none, p') => (none, p')
    | (some v, p') => (some (v, false), p')
  else if p.current.type = .TOK_NUM then
    match parse_im p with
    | none => (none, p)
    | some v => (some (v, true), (advance p).2)
  else (none, p)

/-- Control flow of one arm of the `switch` in `parse_cmd`: `early` is a
`return NULL;` taken inside the arm (skipping the terminator check),
`fall` reaches the `consume_newline` check at the bottom of the
function. -/
inductive ParseCaseResult where
  | early (p : Parser)
  | fall (cmd : Option Command) (p : Parser)

/-- `parse_cmd` in `parser.c`: skip blank lines, handle an optional
`IDENT ':'` label prefix (recursively parsing the labeled command and
then registering the label; a duplicate registration sets the error flag
but the command is still returned), then dispatch on the instruction
keyword and finally require a newline/EOF terminator.  The fuel bounds
the label recursion (each level consumes two tokens, so any fuel above
the token count is enough). -/
def parse_cmd : Nat → Parser → Option Command × Parser
  | 0, p => (none, { p with had_error := true })
  | fuel + 1, p =>
    let p := skip_nls p
    let token := p.current
    if token.type = .TOK_IDENT ∧ p.next.type = .TOK_COLON then
      let label_token := token
      let p := (advance p).2
      let p := (advance p).2
      let (labeled_cmd, p) := parse_cmd fuel p
      match labeled_cmd with
      | some c =>
        let (ok, m) := put_label p.label_map label_token.lexeme p.next_index
        (some c,
          { p with label_map := m,
                   had_error := if ok then p.had_error else true })
      | none => (none, p)
    else if token.type = .TOK_EOF then (none, p)
    else
      let r : ParseCaseResult :=
        match token.type with
        | .TOK_MOV =>
          let p := (advance p).2
          match parse_variable_operand p with
          | (none, p) => .early { p with had_error := true }
          | (some dest, p) =>
            -- the code skips newlines between MOV's destination and its
            -- immediate
            let p := skip_nls p
            match parse_im p with
            | none => .early { p with had_error := true }
            | some v =>
              let p := (advance p).2
              .fall (some { type := .CMD_MOV,
                            destination := { num_val := dest },
                            val_a := { num_val := v },
                            is_a_immediate := true }) p
        | .TOK_ADD | .TOK_SUB =>
          let ty := if token.type = .TOK_ADD then CommandType.CMD_ADD
                    else CommandType.CMD_SUB
          let p := (advance p).2
          match parse_variable_operand p with
          | (none, p) => .early { p with had_error := true }
          | (some dest, p) =>
            match parse_variable_operand p with
            | (none, p) => .early { p with had_error := true }
            | (some a, p) =>
              match parse_var_or_imm p with
              | (none, p) => .early { p with had_error := true }
              | (some (b, isb), p) =>
                .fall (some { type := ty,
                              destination := { num_val := dest },
                              val_a := { num_val := a },
                              val_b := { num_val := b },
                              is_b_immediate := isb }) p
        | .TOK_CMP | .TOK_CMP_U =>
          let ty := if token.type = .TOK_CMP then CommandType.CMD_CMP
                    else CommandType.CMD_CMP_U
          let p := (advance p).2
          match parse_variable_operand p with
          | (none, p) => .early { p with had_error := true }
          | (some a, p) =>
            match parse_var_or_imm p with
            | (none, p) => .early { p with had_error := true }
            | (some (b, isb), p) =>
              .fall (some { type := ty,
                            val_a := { num_val := a },
                            val_b := { num_val := b },
                            is_b_immediate := isb }) p
        | .TOK_PRINT =>
          let p := (advance p).2
          match parse_var_or_imm p with
          | (none, p) => .early { p with had_error := true }
          | (some (a, isa), p) =>
            match parse_base p with
            | (none, p) => .early { p with had_error := true }
            | (some base, p) =>
              .fall (some { type := .CMD_PRINT,
                            val_a := { num_val := a },
                            val_b := { base := base },
                            is_a_immediate := isa }) p
        | .TOK_AND | .TOK_EOR | .TOK_ORR =>
          let ty := if token.type = .TOK_AND then CommandType.CMD_AND
                    else if token.type = .TOK_EOR then CommandType.CMD_EOR
                    else CommandType.CMD_ORR
          let p := (advance p).2
          match parse_variable_operand p with
          | (none, p) => .early { p with had_error := true }
          | (some dest, p) =>
            match parse_variable_operand p with
            | (none, p) => .early { p with had_error := true }
            | (some a, p) =>
              match parse_variable_operand p with
              | (none, p) => .early { p with had_error := true }
              | (some b, p) =>
                .fall (some { type := ty,
                              destination := { num_val := dest },
                              val_a := { num_val := a },
                              val_b := { num_val := b },
                              is_a_immediate := false,
                              is_b_immediate := false }) p
        | .TOK_LSL | .TOK_LSR | .TOK_ASR =>
          let ty := if token.type = .TOK_LSL then CommandType.CMD_LSL
                    else if token.type = .TOK_LSR then CommandType.CMD_LSR
                    else CommandType.CMD_ASR
          let p := (advance p).2
          match parse_variable_operand p with
          | (none, p) => .early { p with had_error := true }
          | (some dest, p) =>
            match parse_variable_operand p with
            | (none, p) => .early { p with had_error := true }
            | (some a, p) =>
              match parse_var_or_imm p with
              | (none, p) => .early { p with had_error := true }
              | (some (b, isb), p) =>
                .fall (some { type := ty,
                              destination := { num_val := dest },
                              val_a := { num_val := a },
                              val_b := { num_val := b },
                              is_b_immediate := isb }) p
        | .TOK_LOAD =>
          let p := (advance p).2
          match parse_variable_operand p with
          | (none, p) => .early { p with had_error := true }
          | (some dest, p) =>
            match parse_im p with
            | none => .early { p with had_error := true }
            | some bytes =>
              let p := (advance p).2
              match parse_var_or_imm p with
              | (none, p) => .early { p with had_error := true }
              | (some (b, isb), p) =>
                .fall (some { type := .CMD_LOAD,
                              destination := { num_val := dest },
                              val_a := { num_val := bytes },
                              val_b := { num_val := b },
                              is_a_immediate := true,
                              is_b_immediate := isb }) p
        | .TOK_STORE =>
          let p := (advance p).2
          match parse_variable_operand p with
          | (none, p) => .early { p with had_error := true }
          | (some dest, p) =>
            match parse_var_or_imm p with
            | (none, p) => .early { p with had_error := true }
            | (some (b, isb), p) =>
              match parse_im p with
              | none => .early { p with had_error := true }
              | some bytes =>
                let p := (advance p).2
                .fall (some { type := .CMD_STORE,
                              destination := { num_val := dest },
                              val_a := { num_val := bytes },
                              val_b := { num_val := b },
                              is_a_immediate := true,
                              is_b_immediate := isb }) p
        | .TOK_PUT =>
          let p := (advance p).2
          if p.current.type = .TOK_STR then
            let str := p.current.lexeme
            let p := (advance p).2
            match parse_var_or_imm p with
            | (none, p) => .early { p with had_error := true }
            | (some (b, isb), p) =>
              .fall (some { type := .CMD_PUT,
                            val_a := { str_val := some str },
                            val_b := { num_val := b },
                            is_a_string := true,
                            is_b_immediate := isb }) p
          else .early { p with had_error := true }
        | .TOK_BRANCH | .TOK_BRANCH_EQ | .TOK_BRANCH_GE | .TOK_BRANCH_GT
        | .TOK_BRANCH_LE | .TOK_BRANCH_LT | .TOK_BRANCH_NEQ =>
          let cond :=
            match token.type with
            | .TOK_BRANCH => BranchCondition.BRANCH_ALWAYS
            | .TOK_BRANCH_EQ => BranchCondition.BRANCH_EQUAL
            | .TOK_BRANCH_GE => BranchCondition.BRANCH_GREATER_EQUAL
            | .TOK_BRANCH_GT => BranchCondition.BRANCH_GREATER
            | .TOK_BRANCH_LE => BranchCondition.BRANCH_LESS_EQUAL
            | .TOK_BRANCH_LT => BranchCondition.BRANCH_LESS
            | .TOK_BRANCH_NEQ => BranchCondition.BRANCH_NOT_EQUAL
            | _ => BranchCondition.BRANCH_NONE
          let p := (advance p).2
          if p.current.type = .TOK_IDENT then
            let name := p.current.lexeme
            let p := (advance p).2
            .fall (some { type := .CMD_BRANCH,
                          val_a := { str_val := some name },
                          is_a_string := true,
                          branch_condition := cond }) p
          else .early { p with had_error := true }
        | .TOK_CALL =>
          let p := (advance p).2
          if p.current.type = .TOK_IDENT then
            let name := p.current.lexeme
            let p := (advance p).2
            .fall (some { type := .CMD_CALL,
                          val_a := { str_val := some name },
                          is_a_string := true }) p
          else .early { p with had_error := true }
        | .TOK_RET =>
          let p := (advance p).2
          .fall (some { type := .CMD_RET }) p
        | _ => .fall none { p with had_error := true }
      match r with
      | .early p1 => (none, p1)
      | .fall cmd p1 =>
        let (ok, p2) := consume_newline p1
        if ok then (cmd, p2) else (none, { p2 with had_error := true })

/-- The `while (!parser->had_error && !is_at_end(parser))` loop of
`parse_commands`: append each parsed command to the program list; a
`NULL` result ends the loop, and a command parsed with the error flag
set (the duplicate-label case) is still appended before the loop
condition stops the parse. -/
def parse_commands_aux (cmdFuel : Nat) : Nat → Parser → List Command × Parser
  | 0, p => ([], p)
  | fuel + 1, p =>
    if p.had_error || is_at_end p then ([], p)
    else
      match parse_cmd cmdFuel p with
      | (none, p') => ([], p')
      | (some c, p') =>
        let p'' := { p' with next_index := p'.next_index + 1 }
        let (rest, pf) := parse_commands_aux cmdFuel fuel p''
        (c :: rest, pf)

/-- `parse_commands` in `parser.c`. -/
def parse_commands (p : Parser) : List Command × Parser :=
  parse_commands_aux (p.toks.length + 4) (p.toks.length + 4) p

/-- Parse a whole token stream against a fresh label table of the given
capacity: the program list and the final parser state (error flag and
label table). -/
def parse_program (toks : List Token) (capacity : Nat) :
    List Command × Parser :=
  parse_commands (parser_init toks (label_map_init capacity))

/-- Value of a bit string, most significant digit first — the reference
meaning of the spec's "bit string" used to state correctness of
`to_binary_string`. -/
def bitsVal : List Char → Nat
  | [] => 0
  | c :: rest => (if c = '1' then 1 else 0) * 2 ^ rest.length + bitsVal rest

/-- Whether executing a command reads `val_a` through
`fetch_number_value` with the register flag: the arithmetic, comparison,
bitwise and shift opcodes always pass `false` (or, for MOV/PRINT/
LOAD/STORE, the command's own `is_a_immediate` flag) as `is_im`, so the
fetch is a register read exactly in these cases. -/
def fetchesRegisterA (cmd : Command) : Bool :=
  match cmd.type with
  | .CMD_ADD | .CMD_SUB | .CMD_CMP | .CMD_CMP_U | .CMD_AND | .CMD_EOR
  | .CMD_ORR | .CMD_LSL | .CMD_LSR | .CMD_ASR => true
  | .CMD_MOV | .CMD_PRINT | .CMD_LOAD | .CMD_STORE => !cmd.is_a_immediate
  | _ => false

/-- Same classification for `val_b`: AND/EOR/ORR always fetch it as a
register, the other consumers pass the command's `is_b_immediate`
flag. -/
def fetchesRegisterB (cmd : Command) : Bool :=
  match cmd.type with
  | .CMD_AND | .CMD_EOR | .CMD_ORR => true
  | .CMD_ADD | .CMD_SUB | .CMD_CMP | .CMD_CMP_U | .CMD_LSL | .CMD_LSR
  | .CMD_ASR | .CMD_LOAD | .CMD_STORE | .CMD_PUT => !cmd.is_b_immediate
  | _ => false

/-! ## Basic lemmas about `fetch_number_value` -/

theorem fetch_oor (s : Interp) (op : Operand)
    (h : op.num_val < 0 ∨ (NUM_VARIABLES : Int) ≤ op.num_val) :
    fetch_number_value s op false = ({ s with had_error := true }, 0) := by
  have h' : op.num_val < 0 ∨ op.num_val ≥ (NUM_VARIABLES : Int) := h
  simp [fetch_number_value, h']

theorem fetch_in_range (s : Interp) (op : Operand)
    (h : ¬(op.num_val < 0 ∨ op.num_val ≥ (NUM_VARIABLES : Int))) :
    fetch_number_value s op false = (s, s.vars op.num_val) := by
  simp only [fetch_number_value, if_neg h, Bool.false_eq_true, if_false]

theorem fetch_imm (s : Interp) (op : Operand) :
    fetch_number_value s op true = (s, op.num_val) := rfl

theorem fetch_preserves_error (s : Interp) (op : Operand) (im : Bool)
    (h : s.had_error = true) :
    (fetch_number_value s op im).1.had_error = true := by
  simp only [fetch_number_value]
  split_ifs <;> simp [h]

theorem fetch_no_error {s : Interp} {op : Operand} {im : Bool}
    (h : (fetch_number_value s op im).1.had_error = false) :
    (fetch_number_value s op im).1 = s := by
  simp only [fetch_number_value] at h ⊢
  split_ifs at h ⊢ <;> simp_all

theorem fetch_no_error_src {s : Interp} {op : Operand} {im : Bool}
    (h : (fetch_number_value s op im).1.had_error = false) :
    s.had_error = false := by
  rw [fetch_no_error h] at h
  exact h

theorem fetch_err_pair (s : Interp) (op : Operand) (im : Bool)
    (h : s.had_error = true) :
    ∃ s2 v, fetch_number_value s op im = (s2, v) ∧ s2.had_error = true :=
  ⟨_, _, rfl, fetch_preserves_error s op im h⟩

/-- C10: for every opcode, a register-flagged operand fetch with an
index outside `[0, 31]` goes through the single bounds check of
`fetch_number_value`, which sets the error flag and yields 0 instead of
reading the register file; consequently executing any command whose
register-flagged `val_a` or `val_b` is out of range leaves the
interpreter with the error flag set and the cursor parked on that
command. -/
theorem C10_register_fetch_bounds :
    (∀ (s : Interp) (op : Operand),
        op.num_val < 0 ∨ (NUM_VARIABLES : Int) ≤ op.num_val →
        fetch_number_value s op false = ({ s with had_error := true }, 0)) ∧
    (∀ (prog : List Command) (map : LabelMap) (s : Interp) (pc : Nat)
        (cmd : Command),
        ((fetchesRegisterA cmd = true ∧
            (cmd.val_a.num_val < 0 ∨ (NUM_VARIABLES : Int) ≤ cmd.val_a.num_val)) ∨
          (fetchesRegisterB cmd = true ∧
            (cmd.val_b.num_val < 0 ∨ (NUM_VARIABLES : Int) ≤ cmd.val_b.num_val))) →
        (step prog map s pc cmd).1.had_error = true ∧
        (step prog map s pc cmd).2 = some pc) := by
  constructor
  · exact fetch_oor
  · rintro prog map s pc ⟨ty, dest, va, vb, ia, ias, ib, ibs, bc⟩ h
    rcases h with ⟨hA, hoor⟩ | ⟨hB, hoor⟩
    · -- the register-flagged val_a is out of range
      have hfa := fetch_oor s va hoor
      cases ty <;>
        first
        | (simp only [fetchesRegisterA] at hA
           exact absurd hA Bool.false_ne_true)
        | -- two-fetch opcodes where the second fetch uses is_b_immediate
          (obtain ⟨s2, bv, hfb, hs2⟩ :=
            fetch_err_pair { s with had_error := true } vb ib rfl
           simp [step, hfa, hfb, hs2]
           done)
        | -- AND/EOR/ORR: the second fetch hard-codes the register flag
          (obtain ⟨s2, bv, hfb, hs2⟩ :=
            fetch_err_pair { s with had_error := true } vb false rfl
           simp [step, hfa, hfb, hs2]
           done)
        | -- MOV / PRINT: val_a is fetched with the is_a_immediate flag
          (simp only [fetchesRegisterA, Bool.not_eq_true'] at hA
           subst hA
           simp [step, print_base, hfa]
           done)
        | -- LOAD: val_b is fetched first, then the register-flagged val_a
          (simp only [fetchesRegisterA, Bool.not_eq_true'] at hA
           subst hA
           rcases hf1 : fetch_number_value s vb ib with ⟨s1, ov⟩
           have hfa' := fetch_oor s1 va hoor
           simp [step, hf1, hfa'] <;> split_ifs <;> simp
           done)
        | -- STORE: the register-flagged val_a (byte count) yields 0
          (simp only [fetchesRegisterA, Bool.not_eq_true'] at hA
           subst hA
           obtain ⟨s2, ov, hfb, hs2⟩ :=
             fetch_err_pair { s with had_error := true } vb ib rfl
           simp [step, hfa, hfb, hs2]
           done)
    · -- the register-flagged val_b is out of range
      cases ty <;>
        first
        | (simp only [fetchesRegisterB] at hB
           exact absurd hB Bool.false_ne_true)
        | -- AND/EOR/ORR: both fetches hard-code the register flag
          (rcases hf1 : fetch_number_value s va false with ⟨s1, av⟩
           have hfb := fetch_oor s1 vb hoor
           simp [step, hf1, hfb]
           done)
        | -- two-fetch opcodes where val_b uses is_b_immediate
          (simp only [fetchesRegisterB, Bool.not_eq_true'] at hB
           subst hB
           rcases hf1 : fetch_number_value s va false with ⟨s1, av⟩
           have hfb := fetch_oor s1 vb hoor
           simp [step, hf1, hfb]
           done)
        | -- LOAD: the register-flagged val_b (offset) is fetched first
          (simp only [fetchesRegisterB, Bool.not_eq_true'] at hB
           subst hB
           have hfb := fetch_oor s vb hoor
           obtain ⟨s2, bytv, hf2, hs2⟩ :=
             fetch_err_pair { s with had_error := true } va ia rfl
           simp [step, hfb, hf2, hs2] <;> split_ifs <;> simp [hs2]
           done)
        | -- STORE: val_a (byte count) is fetched first
          (simp only [fetchesRegisterB, Bool.not_eq_true'] at hB
           subst hB
           rcases hf1 : fetch_number_value s va ia with ⟨s1, bytes⟩
           have hfb := fetch_oor s1 vb hoor
           simp [step, hf1, hfb] <;> split_ifs <;> simp
           done)
        | -- PUT: the offset fetch errors whatever the string operand is
          (simp only [fetchesRegisterB, Bool.not_eq_true'] at hB
           subst hB
           have hfb := fetch_oor s vb hoor
           rcases hstr : va.str_val with _ | str <;> simp [step, hfb, hstr]
           done)

/-- Closed instance of `C10_register_fetch_bounds`: fetching register
index 32 from the initial state sets the error flag and yields 0, and a
CMP whose first operand is register 32 errors and leaves the cursor in
place. -/
theorem C10_register_fetch_bounds_witness :
    ((32 : Int) < 0 ∨ (NUM_VARIABLES : Int) ≤ 32) ∧
    fetch_number_value interpreter_init { num_val := 32 } false =
      ({ interpreter_init with had_error := true }, 0) ∧
    (step [] (label_map_init 4) interpreter_init 0
        { type := .CMD_CMP, val_a := { num_val := 32 },
          val_b := { num_val := 0 } }).1.had_error = true :=
  ⟨by decide,
   C10_register_fetch_bounds.1 interpreter_init { num_val := 32 } (by decide),
   (C10_register_fetch_bounds.2 [] (label_map_init 4) interpreter_init 0
      { type := .CMD_CMP, val_a := { num_val := 32 }, val_b := { num_val := 0 } }
      (Or.inl ⟨by decide, by decide⟩)).1⟩

/-- Once the error flag is set, the run loop returns immediately: the
"halted-error" terminal state of the spec. -/
theorem interpret_loop_error (prog : List Command) (map : LabelMap)
    (fuel : Nat) (s : Interp) (cur : Option Nat) (h : s.had_error = true) :
    interpret_loop prog map fuel s cur = (s, cur) := by
  cases cur with
  | none => cases fuel <;> rfl
  | some pc =>
    cases fuel with
    | zero => rfl
    | succ n => simp [interpret_loop, h]

/-- C3: after a successfully executed CMP or CMP_U, exactly one of the
three condition flags is true; greater comes from the signed comparison
for CMP and from the bit-reinterpreted unsigned comparison for CMP_U,
equal is set independently by equality of the fetched values, and less
is the negation of (greater or equal). -/
theorem C3_cmp_exactly_one_flag (prog : List Command) (map : LabelMap)
    (s : Interp) (pc : Nat) (cmd : Command) (s1 s2 : Interp) (a b : Int)
    (hty : cmd.type = CommandType.CMD_CMP ∨ cmd.type = CommandType.CMD_CMP_U)
    (hfa : fetch_number_value s cmd.val_a false = (s1, a))
    (hfb : fetch_number_value s1 cmd.val_b cmd.is_b_immediate = (s2, b))
    (hok : s2.had_error = false) :
    (step prog map s pc cmd).1.had_error = false ∧
    (((step prog map s pc cmd).1.is_greater = true ∧
        (step prog map s pc cmd).1.is_equal = false ∧
        (step prog map s pc cmd).1.is_less = false) ∨
     ((step prog map s pc cmd).1.is_greater = false ∧
        (step prog map s pc cmd).1.is_equal = true ∧
        (step prog map s pc cmd).1.is_less = false) ∨
     ((step prog map s pc cmd).1.is_greater = false ∧
        (step prog map s pc cmd).1.is_equal = false ∧
        (step prog map s pc cmd).1.is_less = true)) ∧
    (cmd.type = CommandType.CMD_CMP →
        (step prog map s pc cmd).1.is_greater = decide (a > b)) ∧
    (cmd.type = CommandType.CMD_CMP_U →
        (step prog map s pc cmd).1.is_greater =
          decide (toUnsigned a > toUnsigned b)) ∧
    (step prog map s pc cmd).1.is_equal = decide (a = b) ∧
    (step prog map s pc cmd).1.is_less =
      !((step prog map s pc cmd).1.is_greater ||
        (step prog map s pc cmd).1.is_equal) ∧
    (step prog map s pc cmd).2 = nextOf prog pc := by
  obtain ⟨ty, dest, va, vb, ia, ias, ib, ibs, bc⟩ := cmd
  simp only at hfa hfb
  rcases hty with h | h <;> simp only at h <;> subst h
  · -- CMD_CMP: signed comparison
    have hstep : step prog map s pc
        ⟨.CMD_CMP, dest, va, vb, ia, ias, ib, ibs, bc⟩ =
        ({ s2 with is_greater := decide (a > b), is_equal := decide (a = b),
                   is_less := !(decide (a > b) || decide (a = b)) },
          nextOf prog pc) := by
      simp [step, hfa, hfb, hok]
    rw [hstep]
    refine ⟨hok, ?_, ?_, ?_, rfl, rfl, rfl⟩
    · rcases lt_trichotomy a b with h | h | h
      · simp [h, ne_of_lt h, lt_asymm h]
      · simp [h]
      · simp [h, ne_of_gt h, lt_asymm h]
    · intro
      rfl
    · intro hc
      simp at hc
  · -- CMD_CMP_U: unsigned comparison
    have hstep : step prog map s pc
        ⟨.CMD_CMP_U, dest, va, vb, ia, ias, ib, ibs, bc⟩ =
        ({ s2 with is_greater := decide (toUnsigned a > toUnsigned b),
                   is_equal := decide (a = b),
                   is_less := !(decide (toUnsigned a > toUnsigned b) ||
                                decide (a = b)) },
          nextOf prog pc) := by
      simp [step, hfa, hfb, hok]
    rw [hstep]
    refine ⟨hok, ?_, ?_, ?_, rfl, rfl, rfl⟩
    · by_cases heq : a = b
      · subst heq
        simp
      · rcases lt_trichotomy (toUnsigned a) (toUnsigned b) with h | h | h
        · simp [h, heq, lt_asymm h]
        · simp [h, heq]
        · simp [h, heq, lt_asymm h]
    · intro hc
      simp at hc
    · intro
      rfl

/-- Closed instance of `C3_cmp_exactly_one_flag`: comparing register 0
(value 0) with the immediate 1 sets exactly the less flag. -/
theorem C3_cmp_exactly_one_flag_witness :
    (step [] (label_map_init 1) interpreter_init 0
        { type := .CMD_CMP, val_a := { num_val := 0 },
          val_b := { num_val := 1 }, is_b_immediate := true }).1.had_error
        = false ∧
    (step [] (label_map_init 1) interpreter_init 0
        { type := .CMD_CMP, val_a := { num_val := 0 },
          val_b := { num_val := 1 }, is_b_immediate := true }).1.is_less
        = !(decide ((0 : Int) > 1) || decide ((0 : Int) = 1)) := by
  have h := C3_cmp_exactly_one_flag [] (label_map_init 1) interpreter_init 0
    { type := .CMD_CMP, val_a := { num_val := 0 },
      val_b := { num_val := 1 }, is_b_immediate := true }
    interpreter_init interpreter_init 0 1 (Or.inl rfl) rfl rfl rfl
  refine ⟨h.1, ?_⟩
  rw [h.2.2.2.2.2.1, h.2.2.2.2.1, h.2.2.1 rfl]

/-- `toSigned` only depends on the argument's residue mod `2^64`. -/
theorem toSigned_congr {x y : Int} (h : x % 2 ^ 64 = y % 2 ^ 64) :
    toSigned x = toSigned y := by
  simp only [toSigned]
  rw [h]

theorem toSigned_toUnsigned (x : Int) : toSigned (toUnsigned x) = toSigned x :=
  toSigned_congr (by simp [toUnsigned, Int.emod_emod_of_dvd])

/-- C4: ADD and SUB perform unsigned 64-bit wraparound arithmetic on
the two fetched operands and store the result back reinterpreted as
signed; the destination index is bounds-checked to 0..31 and an
out-of-range destination is a fatal error. -/
theorem C4_add_sub_wraparound (prog : List Command) (map : LabelMap)
    (s : Interp) (pc : Nat) (cmd : Command) (s1 s2 : Interp) (a b : Int)
    (hty : cmd.type = CommandType.CMD_ADD ∨ cmd.type = CommandType.CMD_SUB)
    (hfa : fetch_number_value s cmd.val_a false = (s1, a))
    (hfb : fetch_number_value s1 cmd.val_b cmd.is_b_immediate = (s2, b))
    (hok : s2.had_error = false) :
    (¬(cmd.destination.num_val < 0 ∨
        (NUM_VARIABLES : Int) ≤ cmd.destination.num_val) →
      (step prog map s pc cmd).1.had_error = false ∧
      (step prog map s pc cmd).1.vars cmd.destination.num_val =
        toSigned (if cmd.type = CommandType.CMD_ADD
                  then toUnsigned a + toUnsigned b
                  else toUnsigned a - toUnsigned b) ∧
      (step prog map s pc cmd).2 = nextOf prog pc) ∧
    ((cmd.destination.num_val < 0 ∨
        (NUM_VARIABLES : Int) ≤ cmd.destination.num_val) →
      (step prog map s pc cmd).1.had_error = true ∧
      (step prog map s pc cmd).2 = some pc) := by
  obtain ⟨ty, dest, va, vb, ia, ias, ib, ibs, bc⟩ := cmd
  simp only at hfa hfb
  rcases hty with h | h <;> simp only at h <;> subst h <;>
    constructor <;> intro hdest
  · have hd : ¬(dest.num_val < 0 ∨ dest.num_val ≥ (NUM_VARIABLES : Int)) := hdest
    simp [step, hfa, hfb, hok, hd, setVar, toSigned_toUnsigned]
  · have hd : dest.num_val < 0 ∨ dest.num_val ≥ (NUM_VARIABLES : Int) := hdest
    simp [step, hfa, hfb, hok, hd]
  · have hd : ¬(dest.num_val < 0 ∨ dest.num_val ≥ (NUM_VARIABLES : Int)) := hdest
    simp [step, hfa, hfb, hok, hd, setVar, toSigned_toUnsigned]
  · have hd : dest.num_val < 0 ∨ dest.num_val ≥ (NUM_VARIABLES : Int) := hdest
    simp [step, hfa, hfb, hok, hd]

/-- Closed instance of `C4_add_sub_wraparound`, the wraparound case of
the claim: adding the bit pattern `0x7FFFFFFFFFFFFFFF` (the stored
signed value `2^63 - 1`) and 1 stores the wrapped value whose unsigned
pattern is `0x8000000000000000` — the most negative signed value — and
is not an error. -/
theorem C4_add_sub_wraparound_witness :
    (step [] (label_map_init 1)
        { interpreter_init with vars := setVar interpreter_init.vars 0 (2 ^ 63 - 1) } 0
        { type := .CMD_ADD, destination := { num_val := 2 },
          val_a := { num_val := 0 }, val_b := { num_val := 1 },
          is_b_immediate := true }).1.had_error = false ∧
    (step [] (label_map_init 1)
        { interpreter_init with vars := setVar interpreter_init.vars 0 (2 ^ 63 - 1) } 0
        { type := .CMD_ADD, destination := { num_val := 2 },
          val_a := { num_val := 0 }, val_b := { num_val := 1 },
          is_b_immediate := true }).1.vars 2 = -(2 ^ 63) ∧
    toUnsigned ((step [] (label_map_init 1)
        { interpreter_init with vars := setVar interpreter_init.vars 0 (2 ^ 63 - 1) } 0
        { type := .CMD_ADD, destination := { num_val := 2 },
          val_a := { num_val := 0 }, val_b := { num_val := 1 },
          is_b_immediate := true }).1.vars 2) = 2 ^ 63 := by
  have h := C4_add_sub_wraparound [] (label_map_init 1)
    { interpreter_init with vars := setVar interpreter_init.vars 0 (2 ^ 63 - 1) } 0
    { type := .CMD_ADD, destination := { num_val := 2 },
      val_a := { num_val := 0 }, val_b := { num_val := 1 },
      is_b_immediate := true }
    { interpreter_init with vars := setVar interpreter_init.vars 0 (2 ^ 63 - 1) }
    { interpreter_init with vars := setVar interpreter_init.vars 0 (2 ^ 63 - 1) }
    (2 ^ 63 - 1) 1 (Or.inl rfl) (by rfl) rfl rfl
  obtain ⟨hval, hcur⟩ := (h.1 (by decide)).2
  refine ⟨(h.1 (by decide)).1, ?_, ?_⟩
  · rw [hval]
    norm_num [toSigned, toUnsigned]
  · rw [hval]
    norm_num [toSigned, toUnsigned]

/-- C5: for LSL, LSR and ASR the fetched shift amount is range-checked
to [0, 63]: in range, LSL is a plain left shift, LSR a zero-filling
unsigned right shift and ASR a sign-extending signed right shift of the
value fetched from the first source register; out of range (e.g. 64 or
-1) the error flag is set and the run loop stops at that instruction. -/
theorem C5_shift_range (prog : List Command) (map : LabelMap)
    (s : Interp) (pc : Nat) (cmd : Command) (s1 s2 : Interp) (a b : Int)
    (hty : cmd.type = CommandType.CMD_LSL ∨ cmd.type = CommandType.CMD_LSR ∨
      cmd.type = CommandType.CMD_ASR)
    (hfa : fetch_number_value s cmd.val_a false = (s1, a))
    (hfb : fetch_number_value s1 cmd.val_b cmd.is_b_immediate = (s2, b))
    (hok : s2.had_error = false) :
    (0 ≤ b → b ≤ 63 →
      (step prog map s pc cmd).1.had_error = false ∧
      (step prog map s pc cmd).1.vars cmd.destination.num_val =
        (if cmd.type = CommandType.CMD_LSL then
          toSigned (toUnsigned a * 2 ^ b.toNat)
         else if cmd.type = CommandType.CMD_LSR then
          toSigned (toUnsigned a / 2 ^ b.toNat)
         else Int.fdiv a (2 ^ b.toNat)) ∧
      (step prog map s pc cmd).2 = nextOf prog pc) ∧
    ((b < 0 ∨ 63 < b) →
      (step prog map s pc cmd).1.had_error = true ∧
      (step prog map s pc cmd).2 = some pc ∧
      ∀ fuel, (interpret_loop prog map fuel (step prog map s pc cmd).1
                (step prog map s pc cmd).2).1.had_error = true) := by
  obtain ⟨ty, dest, va, vb, ia, ias, ib, ibs, bc⟩ := cmd
  simp only at hfa hfb
  rcases hty with h | h | h <;> simp only at h <;> subst h <;>
    refine ⟨fun h0 h63 => ?_, fun hbad => ?_⟩
  all_goals try
    (have hnb : ¬(b < 0 ∨ b > 63) := by omega
     simp [step, hfa, hfb, hok, hnb, setVar]
     done)
  all_goals
    have hb : b < 0 ∨ b > 63 := by omega
  all_goals
    refine ⟨?_, ?_, fun fuel => ?_⟩ <;>
    first
    | (simp [step, hfa, hfb, hok, hb]
       done)
    | (rw [interpret_loop_error prog map fuel _ _
          (by simp [step, hfa, hfb, hok, hb])]
       simp [step, hfa, hfb, hok, hb])

/-- Closed instance of `C5_shift_range`: with register 0 holding 1, a
left shift by exactly 63 succeeds (producing the sign bit, value
`-2^63`), while shift amounts 64 and -1 set the error flag. -/
theorem C5_shift_range_witness :
    (step [] (label_map_init 1)
        { interpreter_init with vars := setVar interpreter_init.vars 0 1 } 0
        { type := .CMD_LSL, destination := { num_val := 1 },
          val_a := { num_val := 0 }, val_b := { num_val := 63 },
          is_b_immediate := true }).1.had_error = false ∧
    (step [] (label_map_init 1)
        { interpreter_init with vars := setVar interpreter_init.vars 0 1 } 0
        { type := .CMD_LSL, destination := { num_val := 1 },
          val_a := { num_val := 0 }, val_b := { num_val := 63 },
          is_b_immediate := true }).1.vars 1 = -(2 ^ 63) ∧
    (step [] (label_map_init 1)
        { interpreter_init with vars := setVar interpreter_init.vars 0 1 } 0
        { type := .CMD_LSL, destination := { num_val := 1 },
          val_a := { num_val := 0 }, val_b := { num_val := 64 },
          is_b_immediate := true }).1.had_error = true ∧
    (step [] (label_map_init 1)
        { interpreter_init with vars := setVar interpreter_init.vars 0 1 } 0
        { type := .CMD_LSL, destination := { num_val := 1 },
          val_a := { num_val := 0 }, val_b := { num_val := -1 },
          is_b_immediate := true }).1.had_error = true := by
  have h63 := C5_shift_range [] (label_map_init 1)
    { interpreter_init with vars := setVar interpreter_init.vars 0 1 } 0
    { type := .CMD_LSL, destination := { num_val := 1 },
      val_a := { num_val := 0 }, val_b := { num_val := 63 },
      is_b_immediate := true }
    { interpreter_init with vars := setVar interpreter_init.vars 0 1 }
    { interpreter_init with vars := setVar interpreter_init.vars 0 1 }
    1 63 (Or.inl rfl) (by rfl) rfl rfl
  have h64 := C5_shift_range [] (label_map_init 1)
    { interpreter_init with vars := setVar interpreter_init.vars 0 1 } 0
    { type := .CMD_LSL, destination := { num_val := 1 },
      val_a := { num_val := 0 }, val_b := { num_val := 64 },
      is_b_immediate := true }
    { interpreter_init with vars := setVar interpreter_init.vars 0 1 }
    { interpreter_init with vars := setVar interpreter_init.vars 0 1 }
    1 64 (Or.inl rfl) (by rfl) rfl rfl
  have hm1 := C5_shift_range [] (label_map_init 1)
    { interpreter_init with vars := setVar interpreter_init.vars 0 1 } 0
    { type := .CMD_LSL, destination := { num_val := 1 },
      val_a := { num_val := 0 }, val_b := { num_val := -1 },
      is_b_immediate := true }
    { interpreter_init with vars := setVar interpreter_init.vars 0 1 }
    { interpreter_init with vars := setVar interpreter_init.vars 0 1 }
    1 (-1) (Or.inl rfl) (by rfl) rfl rfl
  obtain ⟨hval, -⟩ := (h63.1 (by norm_num) (by norm_num)).2
  refine ⟨(h63.1 (by norm_num) (by norm_num)).1, ?_,
    (h64.2 (by norm_num)).1, (hm1.2 (by norm_num)).1⟩
  rw [hval]
  norm_num [toSigned, toUnsigned, show ((63 : Int).toNat = 63) from rfl]

/-- C2: a taken BRANCH to a label absent from the table terminates
normally (cursor becomes null, no error) when the label starts with the
local-label prefix ".L", and otherwise sets the error flag without
advancing; a BRANCH whose condition fails falls through to the next
instruction in program order. -/
theorem C2_branch_unresolved (prog : List Command) (map : LabelMap)
    (s : Interp) (pc : Nat) (cmd : Command) (label : String)
    (hty : cmd.type = CommandType.CMD_BRANCH)
    (hlabel : cmd.val_a.str_val = some label)
    (hpc : prog.get? pc = some cmd)
    (hs : s.had_error = false) :
    (cond_holds s cmd.branch_condition = true →
      get_label map label = none →
      isLocalLabel label = true →
      step prog map s pc cmd = (s, none) ∧
      ∀ fuel, interpret_loop prog map (fuel + 1) s (some pc) = (s, none)) ∧
    (cond_holds s cmd.branch_condition = true →
      get_label map label = none →
      isLocalLabel label = false →
      (step prog map s pc cmd).1.had_error = true ∧
      (step prog map s pc cmd).2 = some pc ∧
      (step prog map s pc cmd).1.vars = s.vars) ∧
    (cond_holds s cmd.branch_condition = false →
      step prog map s pc cmd = (s, nextOf prog pc)) := by
  obtain ⟨ty, dest, va, vb, ia, ias, ib, ibs, bc⟩ := cmd
  simp only at hty hlabel
  subst hty
  refine ⟨fun hc hget hsw => ⟨?_, fun fuel => ?_⟩, fun hc hget hsw => ?_,
    fun hc => ?_⟩
  · simp [step, hc, hlabel, hget, hsw]
  · have hst : step prog map s pc
        ⟨.CMD_BRANCH, dest, va, vb, ia, ias, ib, ibs, bc⟩ = (s, none) := by
      simp [step, hc, hlabel, hget, hsw]
    have hpc' : prog[pc]? =
        some ⟨.CMD_BRANCH, dest, va, vb, ia, ias, ib, ibs, bc⟩ := by
      rw [← List.get?_eq_getElem?]
      exact hpc
    simp [interpret_loop, hs, hpc', hst]
  · simp [step, hc, hlabel, hget, hsw, emitLine]
  · simp [step, hc]

/-- Closed instance of `C2_branch_unresolved`: an unconditional branch
to the unresolved label ".Lend" terminates normally from the initial
state; one to the unresolved label "missing" sets the error flag and
stays put; a `beq` branch with the equal flag clear falls through. -/
theorem C2_branch_unresolved_witness :
    step [{ type := .CMD_BRANCH, val_a := { str_val := some ".Lend" },
            is_a_string := true, branch_condition := .BRANCH_ALWAYS }]
        (label_map_init 2) interpreter_init 0
        { type := .CMD_BRANCH, val_a := { str_val := some ".Lend" },
          is_a_string := true, branch_condition := .BRANCH_ALWAYS } =
      (interpreter_init, none) ∧
    (step [{ type := .CMD_BRANCH, val_a := { str_val := some "missing" },
              is_a_string := true, branch_condition := .BRANCH_ALWAYS }]
        (label_map_init 2) interpreter_init 0
        { type := .CMD_BRANCH, val_a := { str_val := some "missing" },
          is_a_string := true, branch_condition := .BRANCH_ALWAYS }).1.had_error
      = true ∧
    step [{ type := .CMD_BRANCH, val_a := { str_val := some "missing" },
            is_a_string := true, branch_condition := .BRANCH_EQUAL }]
        (label_map_init 2) interpreter_init 0
        { type := .CMD_BRANCH, val_a := { str_val := some "missing" },
          is_a_string := true, branch_condition := .BRANCH_EQUAL } =
      (interpreter_init,
        nextOf [{ type := .CMD_BRANCH, val_a := { str_val := some "missing" },
                  is_a_string := true, branch_condition := .BRANCH_EQUAL }] 0) := by
  refine ⟨((C2_branch_unresolved
      [{ type := .CMD_BRANCH, val_a := { str_val := some ".Lend" },
         is_a_string := true, branch_condition := .BRANCH_ALWAYS }]
      (label_map_init 2) interpreter_init 0
      { type := .CMD_BRANCH, val_a := { str_val := some ".Lend" },
        is_a_string := true, branch_condition := .BRANCH_ALWAYS }
      ".Lend" rfl rfl rfl rfl).1 rfl rfl (by decide)).1, ?_, ?_⟩
  · exact ((C2_branch_unresolved
      [{ type := .CMD_BRANCH, val_a := { str_val := some "missing" },
         is_a_string := true, branch_condition := .BRANCH_ALWAYS }]
      (label_map_init 2) interpreter_init 0
      { type := .CMD_BRANCH, val_a := { str_val := some "missing" },
        is_a_string := true, branch_condition := .BRANCH_ALWAYS }
      "missing" rfl rfl rfl rfl).2.1 rfl rfl (by decide)).1
  · exact (C2_branch_unresolved
      [{ type := .CMD_BRANCH, val_a := { str_val := some "missing" },
         is_a_string := true, branch_condition := .BRANCH_EQUAL }]
      (label_map_init 2) interpreter_init 0
      { type := .CMD_BRANCH, val_a := { str_val := some "missing" },
        is_a_string := true, branch_condition := .BRANCH_EQUAL }
      "missing" rfl rfl rfl rfl).2.2 rfl

/-- Executing one RET with a non-empty stack: the explicit form of the
resulting state. -/
theorem ret_step_eq (prog : List Command) (map : LabelMap) (s : Interp)
    (pc : Nat) (cmd : Command) (hty : cmd.type = CommandType.CMD_RET)
    (f : StackEntry) (rest : List StackEntry)
    (hstack : s.the_stack = f :: rest) :
    step prog map s pc cmd =
      ({ s with
            vars := fun i => if 1 ≤ i ∧ i ≤ (31 : Int) then f.vars i
                             else s.vars i,
            the_stack := rest }, f.command) := by
  obtain ⟨ty, dest, va, vb, ia, ias, ib, ibs, bc⟩ := cmd
  simp only at hty
  subst hty
  simp [step, hstack]

/-- Popping every frame of the stack with consecutive RET steps:
register 0 keeps its current value, registers 1..31 end up with the
values of the bottom (first-pushed) frame, and the stack is empty. -/
theorem ret_pop_all (prog : List Command) (map : LabelMap) (pc : Nat)
    (cmd : Command) (hty : cmd.type = CommandType.CMD_RET) :
    ∀ (fs : List StackEntry) (t : Interp) (hne : fs ≠ [])
      (hstack : t.the_stack = fs),
      ((fun u => (step prog map u pc cmd).1)^[fs.length] t).vars 0
          = t.vars 0 ∧
      (∀ i : Int, 1 ≤ i → i ≤ 31 →
        ((fun u => (step prog map u pc cmd).1)^[fs.length] t).vars i
          = (fs.getLast hne).vars i) ∧
      ((fun u => (step prog map u pc cmd).1)^[fs.length] t).the_stack = []
  | [], _, hne, _ => absurd rfl hne
  | [f], t, _, hstack => by
    have hst := ret_step_eq prog map t pc cmd hty f [] hstack
    refine ⟨?_, fun i h1 h31 => ?_, ?_⟩
    · simp [Function.iterate_one, hst]
    · simp [Function.iterate_one, hst, List.getLast_singleton, h1, h31]
    · simp [Function.iterate_one, hst]
  | f :: g :: rs, t, _, hstack => by
    have hst := ret_step_eq prog map t pc cmd hty f (g :: rs) hstack
    have ih := ret_pop_all prog map pc cmd hty (g :: rs)
      (step prog map t pc cmd).1 (List.cons_ne_nil g rs) (by rw [hst])
    simp only [List.length_cons, Function.iterate_succ_apply] at ih ⊢
    refine ⟨?_, fun i h1 h31 => ?_, ih.2.2⟩
    · rw [ih.1, hst]
      norm_num
    · rw [ih.2.1 i h1 h31, List.getLast_cons (List.cons_ne_nil g rs)]

/-- C1: CALL resolves its label (an unresolved label is fatal), pushes a
frame holding all 32 registers and the resume point (the instruction
after the CALL) and jumps to the target; RET with a non-empty stack pops
the top frame, restores registers 1..31 from it, leaves register 0
untouched and resumes at the saved resume point; RET with an empty
stack terminates normally (cursor null).  Consequently popping N nested
frames with N RETs restores registers 1..31 to the snapshot taken by
the first (outermost) CALL while register 0 keeps the last value written
to it. -/
theorem C1_call_ret_discipline (prog : List Command) (map : LabelMap)
    (s : Interp) (pc : Nat) (cmd : Command) (label : String) :
    (cmd.type = CommandType.CMD_CALL → cmd.val_a.str_val = some label →
      ∀ e, get_label map label = some e →
      step prog map s pc cmd =
        ({ s with the_stack :=
            ⟨s.vars, nextOf prog pc⟩ :: s.the_stack }, some e.command)) ∧
    (cmd.type = CommandType.CMD_CALL → cmd.val_a.str_val = some label →
      get_label map label = none →
      (step prog map s pc cmd).1.had_error = true ∧
      (step prog map s pc cmd).2 = some pc) ∧
    (cmd.type = CommandType.CMD_RET → ∀ f rest, s.the_stack = f :: rest →
      (step prog map s pc cmd).2 = f.command ∧
      (step prog map s pc cmd).1.the_stack = rest ∧
      (step prog map s pc cmd).1.had_error = s.had_error ∧
      (step prog map s pc cmd).1.vars 0 = s.vars 0 ∧
      (∀ i : Int, 1 ≤ i → i ≤ 31 →
        (step prog map s pc cmd).1.vars i = f.vars i)) ∧
    (cmd.type = CommandType.CMD_RET → s.the_stack = [] →
      step prog map s pc cmd = (s, none)) ∧
    (cmd.type = CommandType.CMD_RET →
      ∀ (fs : List StackEntry) (hne : fs ≠ []), s.the_stack = fs →
        ((fun u => (step prog map u pc cmd).1)^[fs.length] s).vars 0
            = s.vars 0 ∧
        (∀ i : Int, 1 ≤ i → i ≤ 31 →
          ((fun u => (step prog map u pc cmd).1)^[fs.length] s).vars i
            = (fs.getLast hne).vars i) ∧
        ((fun u => (step prog map u pc cmd).1)^[fs.length] s).the_stack
            = []) := by
  refine ⟨?_, ?_, ?_, ?_, ?_⟩
  · intro hty hlabel e hget
    obtain ⟨ty, dest, va, vb, ia, ias, ib, ibs, bc⟩ := cmd
    simp only at hty hlabel
    subst hty
    simp [step, hlabel, hget]
  · intro hty hlabel hget
    obtain ⟨ty, dest, va, vb, ia, ias, ib, ibs, bc⟩ := cmd
    simp only at hty hlabel
    subst hty
    simp [step, hlabel, hget, emitLine]
  · intro hty f rest hstack
    have hst := ret_step_eq prog map s pc cmd hty f rest hstack
    rw [hst]
    refine ⟨rfl, rfl, rfl, by norm_num, fun i h1 h31 => ?_⟩
    simp [h1, h31]
  · intro hty hstack
    obtain ⟨ty, dest, va, vb, ia, ias, ib, ibs, bc⟩ := cmd
    simp only at hty
    subst hty
    simp [step, hstack]
  · intro hty fs hne hstack
    exact ret_pop_all prog map pc cmd hty fs s hne hstack

/-- Closed instance of `C1_call_ret_discipline`: a CALL to the
registered label "f" pushes the register snapshot with resume point
`some 1` and jumps to index 1; a RET with an empty stack terminates
normally; two RET steps over a two-frame stack restore the registers
from the bottom frame (value 7) while keeping register 0 (value 0). -/
theorem C1_call_ret_discipline_witness :
    step [{ type := .CMD_CALL, val_a := { str_val := some "f" },
            is_a_string := true },
          { type := .CMD_RET }]
        (put_label (label_map_init 4) "f" 1).2 interpreter_init 0
        { type := .CMD_CALL, val_a := { str_val := some "f" },
          is_a_string := true } =
      ({ interpreter_init with the_stack :=
          [⟨interpreter_init.vars,
            nextOf [{ type := .CMD_CALL, val_a := { str_val := some "f" },
                      is_a_string := true },
                    { type := .CMD_RET }] 0⟩] }, some 1) ∧
    step [{ type := .CMD_CALL, val_a := { str_val := some "f" },
            is_a_string := true },
          { type := .CMD_RET }]
        (put_label (label_map_init 4) "f" 1).2 interpreter_init 1
        { type := .CMD_RET } = (interpreter_init, none) ∧
    ((fun u => (step [] (label_map_init 4) u 0 { type := .CMD_RET }).1)^[2]
        { interpreter_init with
            the_stack := [⟨fun _ => 5, some 1⟩, ⟨fun _ => 7, none⟩] }).vars 3
      = 7 ∧
    ((fun u => (step [] (label_map_init 4) u 0 { type := .CMD_RET }).1)^[2]
        { interpreter_init with
            the_stack := [⟨fun _ => 5, some 1⟩, ⟨fun _ => 7, none⟩] }).vars 0
      = 0 := by
  have hcall := (C1_call_ret_discipline
    [{ type := .CMD_CALL, val_a := { str_val := some "f" },
       is_a_string := true },
     { type := .CMD_RET }]
    (put_label (label_map_init 4) "f" 1).2 interpreter_init 0
    { type := .CMD_CALL, val_a := { str_val := some "f" },
      is_a_string := true } "f").1 rfl rfl ⟨"f", 1⟩ (by rfl)
  have hretEmpty := (C1_call_ret_discipline
    [{ type := .CMD_CALL, val_a := { str_val := some "f" },
       is_a_string := true },
     { type := .CMD_RET }]
    (put_label (label_map_init 4) "f" 1).2 interpreter_init 1
    { type := .CMD_RET } "f").2.2.2.1 rfl rfl
  have hpop := (C1_call_ret_discipline [] (label_map_init 4)
    { interpreter_init with
        the_stack := [⟨fun _ => 5, some 1⟩, ⟨fun _ => 7, none⟩] } 0
    { type := .CMD_RET } "f").2.2.2.2 rfl
    [⟨fun _ => 5, some 1⟩, ⟨fun _ => 7, none⟩] (by simp) rfl
  refine ⟨hcall, hretEmpty, ?_, ?_⟩
  · have h := hpop.2.1 3 (by norm_num) (by norm_num)
    simpa using h
  · simpa using hpop.1

/-- C7 counterexample: the claim that `0x1A`, `0b101` and `26` all
decode to 26 fails on `0b101`, which is binary for 5: `parse_number`
decodes it to 5, not 26. -/
theorem C7_numeric_literal_counterexample :
    parse_number { type := .TOK_NUM, lexeme := "0b101" } = some 5 ∧
    (5 : Int) ≠ 26 := by
  constructor
  · decide
  · decide

/-- C7 amended: `0x1A` and `26` both decode to 26 (and the binary token
for 26 is `0b11010`, while `0b101` decodes to 5); the `0x`/`0b` prefixes
on tokens of at least 3 characters starting with `0` select base 16/2,
and the entire remaining token must be consumed or decoding fails (so
`0x1AG` and `26x` fail). -/
theorem C7_numeric_literal_amended :
    parse_number { type := .TOK_NUM, lexeme := "0x1A" } = some 26 ∧
    parse_number { type := .TOK_NUM, lexeme := "26" } = some 26 ∧
    parse_number { type := .TOK_NUM, lexeme := "0b101" } = some 5 ∧
    parse_number { type := .TOK_NUM, lexeme := "0b11010" } = some 26 ∧
    parse_number { type := .TOK_NUM, lexeme := "0x1AG" } = none ∧
    parse_number { type := .TOK_NUM, lexeme := "26x" } = none := by
  refine ⟨?_, ?_, ?_, ?_, ?_, ?_⟩ <;> decide

/-- C8 counterexample: a newline between MOV's destination register and
its immediate is not an error — `parse_cmd`'s MOV case calls `skip_nls`
between the two operands, so `mov x1 ⏎ 5` parses into a single MOV
command with the error flag clear. -/
theorem C8_newline_in_mov_counterexample :
    (parse_program
      [ { type := .TOK_MOV, lexeme := "mov" },
        { type := .TOK_IDENT, lexeme := "x1" },
        { type := .TOK_NL, lexeme := "\n" },
        { type := .TOK_NUM, lexeme := "5" } ] 16).2.had_error = false ∧
    (parse_program
      [ { type := .TOK_MOV, lexeme := "mov" },
        { type := .TOK_IDENT, lexeme := "x1" },
        { type := .TOK_NL, lexeme := "\n" },
        { type := .TOK_NUM, lexeme := "5" } ] 16).1 =
      [{ type := .CMD_MOV, destination := { num_val := 1 },
         val_a := { num_val := 5 }, is_a_immediate := true }] := by
  constructor
  · decide
  · decide

/-- C8 amended: every line needs exactly one instruction keyword, its
operand sequence and a newline/EOF terminator, and a newline inside the
operands is a halting parse error for instructions other than MOV (shown
here for ADD, and a missing terminator is an error for RET); MOV is the
exception: `parse_cmd` skips newlines between its destination and its
immediate, so `mov x1 ⏎ 5` parses successfully. -/
theorem C8_newline_in_operands_amended :
    (parse_program
      [ { type := .TOK_MOV, lexeme := "mov" },
        { type := .TOK_IDENT, lexeme := "x1" },
        { type := .TOK_NL, lexeme := "\n" },
        { type := .TOK_NUM, lexeme := "5" } ] 16).2.had_error = false ∧
    (parse_program
      [ { type := .TOK_MOV, lexeme := "mov" },
        { type := .TOK_IDENT, lexeme := "x1" },
        { type := .TOK_NL, lexeme := "\n" },
        { type := .TOK_NUM, lexeme := "5" } ] 16).1.length = 1 ∧
    (parse_program
      [ { type := .TOK_ADD, lexeme := "add" },
        { type := .TOK_IDENT, lexeme := "x1" },
        { type := .TOK_IDENT, lexeme := "x2" },
        { type := .TOK_NL, lexeme := "\n" },
        { type := .TOK_IDENT, lexeme := "x3" } ] 16).2.had_error = true ∧
    (parse_program
      [ { type := .TOK_ADD, lexeme := "add" },
        { type := .TOK_IDENT, lexeme := "x1" },
        { type := .TOK_IDENT, lexeme := "x2" },
        { type := .TOK_NL, lexeme := "\n" },
        { type := .TOK_IDENT, lexeme := "x3" } ] 16).1 = [] ∧
    (parse_program
      [ { type := .TOK_RET, lexeme := "ret" },
        { type := .TOK_COLON, lexeme := ":" } ] 16).2.had_error = true := by
  refine ⟨?_, ?_, ?_, ?_, ?_⟩ <;> decide

/-- C9: registering a label that is already present fails without
overwriting — `put_label` returns failure with the map unchanged, so
the earlier mapping still wins — and in the parser a duplicate label
(`L: ret` twice) sets the error flag while the labeled instruction is
still returned and linked into the program list. -/
theorem C9_duplicate_label (m : LabelMap) (id : String) (c' : Nat)
    (e : Entry) (hpresent : get_label m id = some e) :
    (put_label m id c' = (false, m) ∧
      get_label (put_label m id c').2 id = some e) ∧
    ((parse_program
        [ { type := .TOK_IDENT, lexeme := "L" },
          { type := .TOK_COLON, lexeme := ":" },
          { type := .TOK_RET, lexeme := "ret" },
          { type := .TOK_NL, lexeme := "\n" },
          { type := .TOK_IDENT, lexeme := "L" },
          { type := .TOK_COLON, lexeme := ":" },
          { type := .TOK_RET, lexeme := "ret" } ] 16).2.had_error = true ∧
      (parse_program
        [ { type := .TOK_IDENT, lexeme := "L" },
          { type := .TOK_COLON, lexeme := ":" },
          { type := .TOK_RET, lexeme := "ret" },
          { type := .TOK_NL, lexeme := "\n" },
          { type := .TOK_IDENT, lexeme := "L" },
          { type := .TOK_COLON, lexeme := ":" },
          { type := .TOK_RET, lexeme := "ret" } ] 16).1 =
        [{ type := .CMD_RET }, { type := .CMD_RET }] ∧
      get_label (parse_program
        [ { type := .TOK_IDENT, lexeme := "L" },
          { type := .TOK_COLON, lexeme := ":" },
          { type := .TOK_RET, lexeme := "ret" },
          { type := .TOK_NL, lexeme := "\n" },
          { type := .TOK_IDENT, lexeme := "L" },
          { type := .TOK_COLON, lexeme := ":" },
          { type := .TOK_RET, lexeme := "ret" } ] 16).2.label_map "L" =
        some ⟨"L", 0⟩) := by
  have hput : put_label m id c' = (false, m) := by
    simp only [get_label] at hpresent
    have hmem := List.mem_of_find?_eq_some hpresent
    have hpe := List.find?_some hpresent
    have hany : (m.entries.getD (hash_function id % m.capacity) []).any
        (fun x => decide (x.id = id)) = true :=
      List.any_eq_true.mpr ⟨e, hmem, hpe⟩
    simp only [put_label]
    rw [if_pos hany]
  refine ⟨⟨hput, ?_⟩, ?_, ?_, ?_⟩
  · rw [hput]
    exact hpresent
  · decide
  · decide
  · decide

/-- Closed instance of `C9_duplicate_label`: with "L" already mapped to
command 0, a second `put_label` for "L" (now aiming at command 5) fails
and the lookup still returns the original entry. -/
theorem C9_duplicate_label_witness :
    get_label (put_label (label_map_init 8) "L" 0).2 "L" = some ⟨"L", 0⟩ ∧
    put_label (put_label (label_map_init 8) "L" 0).2 "L" 5 =
      (false, (put_label (label_map_init 8) "L" 0).2) ∧
    get_label (put_label (put_label (label_map_init 8) "L" 0).2 "L" 5).2 "L" =
      some ⟨"L", 0⟩ := by
  have h := C9_duplicate_label (put_label (label_map_init 8) "L" 0).2 "L" 5
    ⟨"L", 0⟩ (by decide)
  exact ⟨by decide, h.1.1, h.1.2⟩

/-! ## Correctness of `to_binary_string` (claim C6) -/

theorem emitBits_length (num : Nat) : ∀ i, (emitBits num i).length = i + 1
  | 0 => rfl
  | i + 1 => by simp [emitBits, emitBits_length num i]

theorem emitBits_mem (num : Nat) :
    ∀ i, ∀ c ∈ emitBits num i, c = '0' ∨ c = '1'
  | 0, c, hc => by
    cases h : Nat.testBit num 0 <;> simp [emitBits, h] at hc <;> simp [hc]
  | i + 1, c, hc => by
    cases h : Nat.testBit num (i + 1) <;> simp [emitBits, h] at hc <;>
      rcases hc with hc | hc <;>
      first
      | simp [hc]
      | exact emitBits_mem num i c hc

theorem emitBits_val (num : Nat) :
    ∀ i, bitsVal (emitBits num i) = num % 2 ^ (i + 1)
  | 0 => by
    cases h : Nat.testBit num 0 <;> rw [Nat.testBit_zero] at h <;>
      simp at h <;> simp [emitBits, bitsVal, h] <;> omega
  | i + 1 => by
    have hlen := emitBits_length num i
    have hv := emitBits_val num i
    cases h : Nat.testBit num (i + 1)
    · have h2 : num / 2 ^ (i + 1) % 2 = 0 := by
        rw [Nat.testBit_to_div_mod] at h
        simp at h
        omega
      simp only [emitBits, bitsVal, hlen, hv, h, Nat.mod_pow_succ, h2,
        if_false, Bool.false_eq_true]
      norm_num
      decide
    · have h2 : num / 2 ^ (i + 1) % 2 = 1 := by
        rw [Nat.testBit_to_div_mod] at h
        simpa using h
      simp only [emitBits, bitsVal, hlen, hv, h, Nat.mod_pow_succ, h2,
        if_true]
      norm_num
      omega

theorem findHighest_some (num : Nat) :
    ∀ i h, findHighest num i = some h →
      Nat.testBit num h = true ∧ h ≤ i ∧
        ∀ j, h < j → j ≤ i → Nat.testBit num j = false
  | 0, h, hf => by
    cases hb : Nat.testBit num 0 <;> simp [findHighest, hb] at hf
    subst hf
    exact ⟨hb, le_refl 0, fun j hj hj0 => by omega⟩
  | i + 1, h, hf => by
    cases hb : Nat.testBit num (i + 1) <;> simp [findHighest, hb] at hf
    · obtain ⟨h1, h2, h3⟩ := findHighest_some num i h hf
      refine ⟨h1, by omega, fun j hj hji => ?_⟩
      rcases Nat.lt_or_ge j (i + 1) with hji' | hji'
      · exact h3 j hj (by omega)
      · have : j = i + 1 := by omega
        rw [this]
        exact hb
    · subst hf
      exact ⟨hb, le_refl _, fun j hj hji => by omega⟩

theorem findHighest_none (num : Nat) :
    ∀ i, findHighest num i = none → ∀ j, j ≤ i → Nat.testBit num j = false
  | 0, hf, j, hj => by
    cases hb : Nat.testBit num 0 <;> simp [findHighest, hb] at hf
    have : j = 0 := by omega
    rw [this]
    exact hb
  | i + 1, hf, j, hj => by
    cases hb : Nat.testBit num (i + 1) <;> simp [findHighest, hb] at hf
    rcases Nat.lt_or_ge j (i + 1) with hji | hji
    · exact findHighest_none num i hf j (by omega)
    · have : j = i + 1 := by omega
      rw [this]
      exact hb

/-- For any nonzero unsigned 64-bit value, `to_binary_string` is the
`0b` prefix followed by a nonempty bit string with no leading zero whose
value is the input: the spec's "minimal-width bit string". -/
theorem to_binary_string_spec (num : Nat) (h0 : 0 < num)
    (h64 : num < 2 ^ 64) :
    ∃ ds : List Char,
      to_binary_string num = "0b" ++ String.mk ds ∧
      ds ≠ [] ∧ ds.headD ' ' = '1' ∧
      (∀ c ∈ ds, c = '0' ∨ c = '1') ∧
      bitsVal ds = num := by
  obtain ⟨h, hf⟩ : ∃ h, findHighest num 63 = some h := by
    cases hf : findHighest num 63 with
    | some h => exact ⟨h, rfl⟩
    | none =>
      exfalso
      have hall := findHighest_none num 63 hf
      have hz : num = 0 := by
        apply Nat.eq_of_testBit_eq
        intro j
        rcases le_or_lt j 63 with hj | hj
        · simp [hall j hj]
        · have : num < 2 ^ j :=
            lt_of_lt_of_le h64 (Nat.pow_le_pow_right (by norm_num) hj)
          simp [Nat.testBit_eq_false_of_lt this]
      omega
  obtain ⟨hbit, -, habove⟩ := findHighest_some num 63 h hf
  refine ⟨emitBits num h, ?_, ?_, ?_, emitBits_mem num h, ?_⟩
  · simp only [to_binary_string, if_neg (by omega : ¬num = 0), hf]
  · cases h <;> simp [emitBits]
  · cases h <;> simp [emitBits, hbit]
  · rw [emitBits_val]
    apply Nat.eq_of_testBit_eq
    intro j
    rw [Nat.testBit_mod_two_pow]
    rcases Nat.lt_or_ge j (h + 1) with hj | hj
    · simp [hj]
    · have hfalse : Nat.testBit num j = false := by
        rcases le_or_lt j 63 with hj63 | hj63
        · exact habove j (by omega) hj63
        · exact Nat.testBit_eq_false_of_lt
            (lt_of_lt_of_le h64 (Nat.pow_le_pow_right (by norm_num) (by omega)))
      simp [hfalse, Nat.not_lt.mpr hj]

/-- C6: PRINT with base `d` prints the fetched value as a signed
decimal; with base `b` it prints a `0b`-prefixed minimal-width bit
string with no leading zeros (so value 0 prints exactly `0b0`); with
base `x` it prints lowercase `0x`-prefixed unsigned hexadecimal (so
value -1 prints exactly `0xffffffffffffffff`). -/
theorem C6_print_bases (s : Interp) (cmd : Command) (v : Int) (s1 : Interp)
    (hf : fetch_number_value s cmd.val_a cmd.is_a_immediate = (s1, v))
    (hok : s1.had_error = false) :
    (cmd.val_b.base = 'd' →
      print_base s cmd = (true, emitLine s1 (toString v))) ∧
    (cmd.val_b.base = 'b' →
      print_base s cmd =
        (true, emitLine s1 (to_binary_string (toUnsigned v).toNat))) ∧
    (cmd.val_b.base = 'x' →
      print_base s cmd =
        (true, emitLine s1 ("0x" ++ hexString (toUnsigned v).toNat))) ∧
    to_binary_string 0 = "0b0" ∧
    (∀ n : Nat, 0 < n → n < 2 ^ 64 →
      ∃ ds : List Char,
        to_binary_string n = "0b" ++ String.mk ds ∧ ds ≠ [] ∧
        ds.headD ' ' = '1' ∧ (∀ c ∈ ds, c = '0' ∨ c = '1') ∧
        bitsVal ds = n) ∧
    "0x" ++ hexString (toUnsigned (-1)).toNat = "0xffffffffffffffff" := by
  refine ⟨?_, ?_, ?_, by decide, to_binary_string_spec, by decide⟩
  · intro hbase
    simp [print_base, hf, hok, hbase]
  · intro hbase
    simp [print_base, hf, hok, hbase]
  · intro hbase
    simp [print_base, hf, hok, hbase]

/-- Closed instance of `C6_print_bases`: printing the immediate 0 with
base `b` outputs the line `0b0`, printing the immediate -1 with base
`x` outputs `0xffffffffffffffff`, and printing the immediate -7 with
base `d` outputs `-7`. -/
theorem C6_print_bases_witness :
    (print_base interpreter_init
        { type := .CMD_PRINT, val_a := { num_val := 0 },
          val_b := { base := 'b' }, is_a_immediate := true }).2.output =
      ["0b0"] ∧
    (print_base interpreter_init
        { type := .CMD_PRINT, val_a := { num_val := -1 },
          val_b := { base := 'x' }, is_a_immediate := true }).2.output =
      ["0xffffffffffffffff"] ∧
    (print_base interpreter_init
        { type := .CMD_PRINT, val_a := { num_val := -7 },
          val_b := { base := 'd' }, is_a_immediate := true }).2.output =
      ["-7"] := by
  have hb := (C6_print_bases interpreter_init
    { type := .CMD_PRINT, val_a := { num_val := 0 },
      val_b := { base := 'b' }, is_a_immediate := true }
    0 interpreter_init rfl rfl).2.1 rfl
  have hx := (C6_print_bases interpreter_init
    { type := .CMD_PRINT, val_a := { num_val := -1 },
      val_b := { base := 'x' }, is_a_immediate := true }
    (-1) interpreter_init rfl rfl).2.2.1 rfl
  have hd := (C6_print_bases interpreter_init
    { type := .CMD_PRINT, val_a := { num_val := -7 },
      val_b := { base := 'd' }, is_a_immediate := true }
    (-7) interpreter_init rfl rfl).1 rfl
  refine ⟨?_, ?_, ?_⟩
  · rw [hb]
    decide
  · rw [hx]
    decide
  · rw [hd]
    decide

end ASML
